import Mathlib

/-!
# waly: `cmd/deploy.go`

A shallow embedding of the `deploy` command of waly and proofs about it.

Go strings are embedded as Lean `String`s and scanned through their list of
characters: paths, bucket names and prefixes are taken to be valid UTF-8, for
which searching for a substring byte by byte and character by character find
the same occurrences.

The calls the command makes into its environment (`os.Stat`, `os.Open`,
`filepath.Walk`, `time.Now`, the S3 client) are answered by a `World`; what the
command does is recorded as a list of `Event`s in the order it happens.
-/

namespace Waly

/-! ## `strings.Index`, `strings.Count`, `strings.Replace` -/

/-- The Go function `strings.Index(s, substr)`: the index of the first instance of `substr` in
`s`; `none` stands for the `-1` of Go. -/
def Index (s substr : List Char) : Option Nat :=
  if substr.isPrefixOf s then some 0
  else
    match s with
    | [] => none
    | _ :: t =>
      match Index t substr with
      | none => none
      | some j => some (j + 1)

/-- The loop of `strings.Count(s, substr)` for a non-empty `substr`:
`for { i := Index(s, substr); if i == -1 { return n }; n++; s = s[i+len(substr):] }`,
written as the number still to be added to `n`. Each round drops at least one
character of `s`, so `len(s) + 1` rounds are enough. -/
def countLoop (substr : List Char) : Nat → List Char → Nat
  | 0, _ => 0
  | fuel + 1, s =>
    match Index s substr with
    | none => 0
    | some i => countLoop substr fuel (s.drop (i + substr.length)) + 1

/-- The Go function `strings.Count(s, substr)`: the number of non-overlapping instances of
`substr` in `s`; for an empty `substr`, one more than the number of code
points of `s`. -/
def Count (s substr : List Char) : Nat :=
  if substr.length = 0 then s.length + 1
  else countLoop substr (s.length + 1) s

/-- The loop of `strings.Replace`, `for i := 0; i < n; i++ { ... }`, followed by
the final `b.WriteString(s[start:])`. The first argument is the number of
rounds left, `i` is the loop counter and `rest` is `s[start:]`. The rounds are
never more than `Count(s, old)`, so `Index` finds `old` in every round. -/
def replaceLoop (old new : List Char) : Nat → Nat → List Char → List Char
  | 0, _, rest => rest
  | k + 1, i, rest =>
    let j : Nat :=
      if old.length = 0 then (if i > 0 then 1 else 0)
      else (Index rest old).getD 0
    rest.take j ++ new ++ replaceLoop old new k (i + 1) (rest.drop (j + old.length))

/-- The body of `strings.Replace(s, old, new, n)`, on character lists. -/
def replaceChars (s old new : List Char) (n : Int) : List Char :=
  if old = new ∨ n = 0 then s
  else
    let m := Count s old
    if m = 0 then s
    else
      let n' : Nat := if n < 0 ∨ (m : Int) < n then m else n.toNat
      replaceLoop old new n' 0 s

/-- The Go function `strings.Replace(s, old, new, n)`: a copy of `s` with the first `n`
non-overlapping instances of `old` replaced by `new`; no limit when `n < 0`. -/
def Replace (s old new : String) (n : Int) : String :=
  ⟨replaceChars s.data old.data new.data n⟩

/-- The key `upload` builds for a walked path:
`fmt.Sprintf("%s/%s", prefix, strings.Replace(path, source, "", -1))`. -/
def uploadKey (pfx source path : String) : String :=
  pfx ++ "/" ++ Replace path source "" (-1)

/-! ### The spec's reading of the key -/

/-- Scan `p` from left to right and drop every non-overlapping occurrence of
`S`: `skip` counts the characters of the occurrence under removal that are
still to be dropped. -/
def stripScan (S : List Char) : Nat → List Char → List Char
  | _, [] => []
  | skip + 1, _ :: t => stripScan S skip t
  | 0, c :: t =>
    if S.isPrefixOf (c :: t) then stripScan S (S.length - 1) t
    else c :: stripScan S 0 t

/-- The path `p` with every non-overlapping occurrence of the non-empty string
`S`, scanned left to right, removed. -/
def removeAll (S p : String) : String :=
  ⟨stripScan S.data 0 p.data⟩

/-! ## `fmt.Sprintf` of integers and `buildPrefix` -/

/-- The byte `'0' + d` that `fmtInteger` writes for the decimal digit `d`. -/
def digitChar (d : Nat) : Char := Char.ofNat (48 + d)

/-- The digit loop of `fmt.fmtInteger` in base 10, filling the buffer from its
end: `for u >= 10 { next := u / 10; buf[i] = byte('0' + u - next*10); u = next }`
and then `buf[i] = digits[u]`. The loop divides `u` by ten in every round, so
`u` rounds are enough. -/
def decDigits : Nat → Nat → List Char → List Char
  | 0, u, buf => digitChar u :: buf
  | fuel + 1, u, buf =>
    if u ≥ 10 then decDigits fuel (u / 10) (digitChar (u - (u / 10) * 10) :: buf)
    else digitChar u :: buf

/-- The function `fmt.fmtInteger` for a signed integer in base 10 under the verb `%d` with
the flag `0` (`zero`) and an optional width: with both, the digits are
left-padded with zeros to the width, one less when a sign is written; then the
sign; then `pad` fills what is left of the width with spaces. -/
def fmtInteger (v : Int) (zero : Bool) (wid : Option Nat) : List Char :=
  let negative := decide (v < 0)
  let u := v.natAbs
  let prec : Nat :=
    match zero, wid with
    | true, some w => if negative then w - 1 else w
    | _, _ => 0
  let digits := decDigits u u []
  let padded := List.replicate (prec - digits.length) '0' ++ digits
  let signed := if negative then '-' :: padded else padded
  List.replicate (wid.getD 0 - signed.length) ' ' ++ signed

/-- What `time.Now()` returned, read through `t.Year()`, `t.Month()`, `t.Day()`,
`t.Hour()`, `t.Minute()` and `t.Second()`. -/
structure Time where
  Year : Int
  Month : Int
  Day : Int
  Hour : Int
  Minute : Int
  Second : Int
deriving DecidableEq

/-- The function `buildPrefix`, with `now` for the result of `time.Now()`:
`fmt.Sprintf("%d-%02d-%02dT%02d:%02d:%02d", t.Year(), t.Month(), t.Day(),
t.Hour(), t.Minute(), t.Second())`. -/
def buildPrefix (now : Time) : String :=
  ⟨fmtInteger now.Year false none ++ '-' :: fmtInteger now.Month true (some 2)
    ++ '-' :: fmtInteger now.Day true (some 2)
    ++ 'T' :: fmtInteger now.Hour true (some 2)
    ++ ':' :: fmtInteger now.Minute true (some 2)
    ++ ':' :: fmtInteger now.Second true (some 2)⟩

/-! ### The spec's pattern for the prefix -/

/-- One position of a fixed-width pattern: `\d` or a literal character. -/
inductive PatItem where
  | digit
  | lit (c : Char)

/-- Whether the whole text matches the items one character each, a `\d`
matching `0` to `9`. -/
def matchItems : List PatItem → List Char → Bool
  | [], [] => true
  | PatItem.digit :: ps, c :: cs => c.isDigit && matchItems ps cs
  | PatItem.lit a :: ps, c :: cs => (c == a) && matchItems ps cs
  | _, _ => false

/-- The pattern `^\d{4}-\d{2}-\d{2}T\d{2}:\d{2}:\d{2}$`. -/
def prefixPattern : List PatItem :=
  [.digit, .digit, .digit, .digit, .lit '-', .digit, .digit, .lit '-', .digit, .digit,
   .lit 'T', .digit, .digit, .lit ':', .digit, .digit, .lit ':', .digit, .digit]

/-- Whether `s` matches `^\d{4}-\d{2}-\d{2}T\d{2}:\d{2}:\d{2}$`. -/
def matchesPrefixPattern (s : String) : Bool :=
  matchItems prefixPattern s.data

/-- The decimal number written by a run of digits. -/
def readDec (cs : List Char) : Nat :=
  cs.foldl (fun acc c => 10 * acc + (c.toNat - 48)) 0

/-- The `len` characters of `s` from position `start`, read as a decimal
number. -/
def readField (s : String) (start len : Nat) : Nat :=
  readDec ((s.data.drop start).take len)

/-! ## The environment and the trace -/

/-- A Go `error` value: a system call's error number, or any other error. -/
inductive GoError where
  | errno (code : Nat)
  | other (msg : String)
deriving DecidableEq

/-- The error number of "no such file or directory". -/
def ENOENT : Nat := 2

/-- The predicate `os.IsNotExist(err)`: whether the error is "no such file or
directory". -/
def IsNotExist : GoError → Bool
  | GoError.errno code => code == ENOENT
  | GoError.other _ => false

/-- An `s3.Bucket`; `Name` is a `*string`, `none` for `nil`. -/
structure Bucket where
  Name : Option String
deriving DecidableEq

/-- The helper `aws.StringValue(p)`: the string pointed to, `""` for `nil`. -/
def StringValue : Option String → String
  | some s => s
  | none => ""

/-- An `*os.File` as `os.Open` returns it: the opened file, named by its path,
or `none` for the `nil` returned with an error. -/
abbrev File := Option String

/-- The `s3.PutObjectInput` that `upload` fills in. -/
structure PutObjectInput where
  Body : File
  Bucket : String
  Key : String
deriving DecidableEq

/-- What the command does, in the order it happens. `logPrintf` and `logFatal`
carry the message handed to the logger; `logFatal` ends the process. -/
inductive Event where
  | stat (path : String)
  | listBuckets
  | walk (root : String)
  | openFile (path : String)
  | putObject (input : PutObjectInput)
  | closeFile (file : File)
  | logPrintf (msg : String)
  | printf (text : String)
  | logFatal (msg : String)
deriving DecidableEq

/-- One call of the walk function by `filepath.Walk` that carries an
`os.FileInfo`: the path and whether the `os.FileInfo` says it is a directory. -/
structure WalkEntry where
  path : String
  isDir : Bool
deriving DecidableEq

/-- The process-wide flag variables `source`, `bucket`, `key`, `secret` and
`region`. -/
structure Config where
  source : String
  bucket : String
  key : String
  secret : String
  region : String

/-- The answers of the environment. `openFile` and `putObject` may answer each
call differently: they see everything that happened before the call. -/
structure World where
  /-- The error of `os.Stat(path)`, `none` for `nil`. -/
  stat : String → Option GoError
  /-- The result of `svc.ListBuckets`. -/
  listBuckets : Except GoError (List Bucket)
  /-- The entries `filepath.Walk(root, fn)` passes to `fn`, in their order, as
  long as `fn` returns `nil`. -/
  walk : String → List WalkEntry
  /-- The error of `os.Open(path)`, `none` for `nil`. -/
  openFile : List Event → String → Option GoError
  /-- The error of `svc.PutObject(input)`, `none` for `nil`. -/
  putObject : List Event → PutObjectInput → Option GoError
  /-- The result of `time.Now()`. -/
  now : Time

/-! ## `dirExists`, `bucketExists`, `upload`, `deploy` -/

/-- The function `dirExists(path)`: `(true, nil)` when `os.Stat` succeeds,
`(false, nil)` when its error is not-exist, `(true, err)` for any other error. -/
def dirExists (w : World) (path : String) : Bool × Option GoError :=
  match w.stat path with
  | none => (true, none)
  | some err => if IsNotExist err then (false, none) else (true, some err)

/-- The loop `for _, bucket := range result.Buckets` of `bucketExists`: whether
it returns `true` from inside. -/
def bucketLoop (name : String) : List Bucket → Bool
  | [] => false
  | b :: bs => if StringValue b.Name == name then true else bucketLoop name bs

/-- The function `bucketExists(svc, name)`: `(false, err)` when `ListBuckets`
fails, else whether the loop over the listed buckets finds the name. -/
def bucketExists (w : World) (name : String) : Bool × Option GoError :=
  match w.listBuckets with
  | Except.error err => (false, some err)
  | Except.ok buckets => if bucketLoop name buckets then (true, none) else (false, none)

/-- The walk function `upload(svc, bucket, prefix)` returns, called on one
entry after the events `hist`: the events so far and the error it returns.
It reads the flag variable `source`. -/
def upload (cfg : Config) (w : World) (bucket pfx : String) (hist : List Event)
    (e : WalkEntry) : List Event × Option GoError :=
  if e.isDir then (hist, none)
  else
    let err := w.openFile hist e.path
    let file : File := if err.isSome then none else some e.path
    let h1 := hist ++ [Event.openFile e.path]
    let h2 := if err.isSome then h1 ++ [Event.logPrintf ("Unable to open " ++ e.path)] else h1
    let key := uploadKey pfx cfg.source e.path
    let input : PutObjectInput := { Body := file, Bucket := bucket, Key := key }
    let err2 := w.putObject h2 input
    let h3 := h2 ++ [Event.putObject input]
    let h4 := if err2.isSome then h3 ++ [Event.logPrintf ("Failed to upload " ++ e.path)] else h3
    let h5 := h4 ++ [Event.printf ("Uploaded " ++ e.path ++ "\n")]
    (h5 ++ [Event.closeFile file], none)

/-- The calls `filepath.Walk` makes: `fn` on each entry in order, stopping at
the first error `fn` returns. -/
def walkLoop (fn : List Event → WalkEntry → List Event × Option GoError) :
    List Event → List WalkEntry → List Event
  | hist, [] => hist
  | hist, e :: es =>
    match fn hist e with
    | (h, none) => walkLoop fn h es
    | (h, some _) => h

/-- The function `deploy(cmd, args)`: the events of the run. -/
def deploy (cfg : Config) (w : World) : List Event :=
  if cfg.source = "" then [Event.logFatal "Source directory must be provided"]
  else if cfg.bucket = "" then [Event.logFatal "Bucket name must be provided"]
  else
    let h1 := [Event.stat cfg.source]
    if !(dirExists w cfg.source).1 then
      h1 ++ [Event.logFatal "Source directory does not exist"]
    else
      let h2 := h1 ++ [Event.listBuckets]
      if !(bucketExists w cfg.bucket).1 then
        h2 ++ [Event.logFatal "Destination bucket does not exist"]
      else
        let pfx := buildPrefix w.now
        let h3 := walkLoop (upload cfg w cfg.bucket pfx) (h2 ++ [Event.walk cfg.source])
          (w.walk cfg.source)
        h3 ++ [Event.printf ("Uploaded site with prefix: " ++ pfx ++ "\n")]

/-! ### Reading a trace -/

/-- The `PutObject` calls of a trace, in order. -/
def putCalls : List Event → List PutObjectInput
  | [] => []
  | Event.putObject input :: es => input :: putCalls es
  | _ :: es => putCalls es

/-- The calls to the storage service of a trace: `ListBuckets` and `PutObject`. -/
def storageCalls : List Event → List Event
  | [] => []
  | Event.listBuckets :: es => Event.listBuckets :: storageCalls es
  | Event.putObject input :: es => Event.putObject input :: storageCalls es
  | _ :: es => storageCalls es

/-- What a trace printed on standard output, in order. -/
def printed : List Event → List String
  | [] => []
  | Event.printf text :: es => text :: printed es
  | _ :: es => printed es

/-- The message of the `log.Fatal` that ended the run, if one did. -/
def fatalMessage (tr : List Event) : Option String :=
  match tr.getLast? with
  | some (Event.logFatal msg) => some msg
  | _ => none

/-- Whether the trace started `filepath.Walk`. -/
def walkStarted : List Event → Bool
  | [] => false
  | Event.walk _ :: _ => true
  | _ :: es => walkStarted es

/-- The regular-file entries of a walk. -/
def fileEntries (entries : List WalkEntry) : List WalkEntry :=
  entries.filter (fun e => !e.isDir)

/-! ## Worlds and readings used below -/

/-- A world for examples. -/
def w0 : World where
  stat := fun _ => none
  listBuckets := Except.ok [⟨some "test-bucket"⟩]
  walk := fun _ => [⟨"fixtures/", true⟩, ⟨"fixtures/css", true⟩,
    ⟨"fixtures/css/site.css", false⟩, ⟨"fixtures/index.html", false⟩]
  openFile := fun _ p => if p = "fixtures/index.html" then some (GoError.errno 13) else none
  putObject := fun _ _ => none
  now := ⟨2024, 3, 7, 9, 5, 0⟩

/-- The file `upload` hands to `PutObject`: `nil` when `os.Open` failed. -/
def openedFile (w : World) (hist : List Event) (e : WalkEntry) : File :=
  if (w.openFile hist e.path).isSome then none else some e.path

/-- The bucket and key of a `PutObject` call. -/
def target (input : PutObjectInput) : String × String := (input.Bucket, input.Key)

/-- A world in which every `os.Open` fails with "permission denied" and the
walk of `site/` yields the root and one file. -/
def wOpenFails : World where
  stat := fun _ => none
  listBuckets := Except.ok [⟨some "b"⟩]
  walk := fun _ => [⟨"site/", true⟩, ⟨"site/a.txt", false⟩]
  openFile := fun _ _ => some (GoError.errno 13)
  putObject := fun _ _ => some (GoError.other "no body")
  now := ⟨2024, 3, 7, 9, 5, 0⟩

/-- A world whose source directory is missing. -/
def wNoSource : World where
  stat := fun _ => some (GoError.errno ENOENT)
  listBuckets := Except.ok [⟨some "test-bucket"⟩]
  walk := fun _ => [⟨"fixtures/index.html", false⟩]
  openFile := fun _ _ => none
  putObject := fun _ _ => none
  now := ⟨2024, 3, 7, 9, 5, 0⟩

/-- A world whose `ListBuckets` fails. -/
def wListFails : World where
  stat := fun _ => none
  listBuckets := Except.error (GoError.other "AccessDenied")
  walk := fun _ => [⟨"fixtures/index.html", false⟩]
  openFile := fun _ _ => none
  putObject := fun _ _ => none
  now := ⟨2024, 3, 7, 9, 5, 0⟩

/-- A world whose `os.Stat` fails with "permission denied". -/
def wStatDenied : World where
  stat := fun _ => some (GoError.errno 13)
  listBuckets := Except.ok []
  walk := fun _ => []
  openFile := fun _ _ => none
  putObject := fun _ _ => none
  now := ⟨2024, 3, 7, 9, 5, 0⟩

/-- The walk of the scenario: the directories `fixtures/` and `fixtures/css`, the
files `fixtures/css/site.css` and `fixtures/index.html`. -/
def fixturesWalk : List WalkEntry :=
  [⟨"fixtures/", true⟩, ⟨"fixtures/css", true⟩, ⟨"fixtures/css/site.css", false⟩,
   ⟨"fixtures/index.html", false⟩]

/-! ## Lemmas on strings -/

theorem ne_empty_data {s : String} (h : s ≠ "") : s.data ≠ [] := by
  intro hd
  apply h
  cases s
  simp_all

theorem isPrefixOf_nil_right {old : List Char} (h : old ≠ []) :
    old.isPrefixOf [] = false := by
  cases old with
  | nil => exact absurd rfl h
  | cons a l => rfl

theorem Index_nil {old : List Char} (h : old ≠ []) : Index [] old = none := by
  unfold Index
  simp [isPrefixOf_nil_right h]

theorem Index_cons_hit {old : List Char} {c : Char} {t : List Char}
    (h : old.isPrefixOf (c :: t) = true) : Index (c :: t) old = some 0 := by
  unfold Index
  simp [h]

theorem Index_cons_miss {old : List Char} {c : Char} {t : List Char}
    (h : old.isPrefixOf (c :: t) = false) :
    Index (c :: t) old = (Index t old).map (fun j => j + 1) := by
  rw [Index]
  simp only [h, Bool.false_eq_true, if_false]
  cases Index t old <;> rfl

theorem stripScan_skip (S : List Char) :
    ∀ (k : Nat) (s : List Char), stripScan S k s = stripScan S 0 (s.drop k) := by
  intro k
  induction k with
  | zero => intro s; simp
  | succ k ih =>
    intro s
    cases s with
    | nil => simp [stripScan]
    | cons c t => simp [stripScan, ih t]

theorem stripScan_cons_hit {S : List Char} (hS : S ≠ []) {c : Char} {t : List Char}
    (h : S.isPrefixOf (c :: t) = true) :
    stripScan S 0 (c :: t) = stripScan S 0 ((c :: t).drop S.length) := by
  have hlen : S.length = (S.length - 1) + 1 := by
    have := List.length_pos.mpr hS
    omega
  rw [stripScan]
  simp only [h, if_true]
  rw [stripScan_skip, hlen, List.drop_succ_cons]
  simp

theorem stripScan_cons_miss {S : List Char} {c : Char} {t : List Char}
    (h : S.isPrefixOf (c :: t) = false) :
    stripScan S 0 (c :: t) = c :: stripScan S 0 t := by
  rw [stripScan]
  simp [h]

/-- Where `old` does not occur, the scan removes nothing. -/
theorem stripScan_of_Index_none (old : List Char) :
    ∀ s : List Char, Index s old = none → stripScan old 0 s = s := by
  intro s
  induction s with
  | nil => intro _; rfl
  | cons c t ih =>
    intro h
    cases hp : old.isPrefixOf (c :: t) with
    | true => rw [Index_cons_hit hp] at h; cases h
    | false =>
      rw [Index_cons_miss hp] at h
      rw [stripScan_cons_miss hp, ih (by simpa using h)]

/-- Up to the first occurrence of `old` the scan keeps everything, then it
goes on behind the occurrence. -/
theorem stripScan_of_Index_some {old : List Char} (hold : old ≠ []) :
    ∀ (s : List Char) (j : Nat), Index s old = some j →
      stripScan old 0 s = s.take j ++ stripScan old 0 (s.drop (j + old.length)) := by
  intro s
  induction s with
  | nil => intro j h; rw [Index_nil hold] at h; cases h
  | cons c t ih =>
    intro j h
    cases hp : old.isPrefixOf (c :: t) with
    | true =>
      rw [Index_cons_hit hp] at h
      cases h
      rw [stripScan_cons_hit hold hp]
      simp
    | false =>
      rw [Index_cons_miss hp] at h
      cases hi : Index t old with
      | none => rw [hi] at h; cases h
      | some j' =>
        rw [hi] at h
        simp at h
        subst h
        rw [stripScan_cons_miss hp, ih j' hi]
        have e : j' + 1 + old.length = (j' + old.length) + 1 := by omega
        simp [e]

/-- The rounds `strings.Replace` runs, one for each instance `strings.Count`
found, remove what the left-to-right scan removes. -/
theorem replaceLoop_countLoop {old : List Char} (hold : old ≠ []) :
    ∀ (fuel : Nat) (s : List Char), s.length ≤ fuel → ∀ i : Nat,
      replaceLoop old [] (countLoop old fuel s) i s = stripScan old 0 s := by
  have hpos : 0 < old.length := List.length_pos.mpr hold
  intro fuel
  induction fuel with
  | zero =>
    intro s hs i
    have : s = [] := List.length_eq_zero.mp (by omega)
    subst this
    rfl
  | succ fuel ih =>
    intro s hs i
    cases hi : Index s old with
    | none =>
      simp only [countLoop, hi, replaceLoop]
      exact (stripScan_of_Index_none old s hi).symm
    | some j =>
      have hlen : (s.drop (j + old.length)).length ≤ fuel := by
        rw [List.length_drop]
        omega
      have h0 : old.length ≠ 0 := by omega
      simp only [countLoop, hi, replaceLoop, h0, if_false, Option.getD_some]
      rw [ih _ hlen, stripScan_of_Index_some hold s j hi]
      simp

theorem replaceChars_removeAll {old : List Char} (hold : old ≠ []) (s : List Char) :
    replaceChars s old [] (-1) = stripScan old 0 s := by
  have h0 : old.length ≠ 0 := by
    have := List.length_pos.mpr hold
    omega
  have key := replaceLoop_countLoop hold (s.length + 1) s (by omega) 0
  unfold replaceChars
  simp only [hold, false_or, show ¬ ((-1 : Int) = 0) by decide, if_false, Count, h0]
  by_cases hm : countLoop old (s.length + 1) s = 0
  · simp only [hm, if_true]
    rw [hm] at key
    simpa [replaceLoop] using key
  · simp only [hm, if_false]
    simpa using key

theorem uploadKey_eq_removeAll (P S p : String) (hS : S ≠ "") :
    uploadKey P S p = P ++ "/" ++ removeAll S p := by
  unfold uploadKey Replace removeAll
  have : ("" : String).data = [] := rfl
  rw [this, replaceChars_removeAll (ne_empty_data hS)]

/-! ## Lemmas on traces -/

theorem putCalls_append (a b : List Event) :
    putCalls (a ++ b) = putCalls a ++ putCalls b := by
  induction a with
  | nil => rfl
  | cons e es ih => cases e <;> simp [putCalls, ih]

theorem printed_append (a b : List Event) :
    printed (a ++ b) = printed a ++ printed b := by
  induction a with
  | nil => rfl
  | cons e es ih => cases e <;> simp [printed, ih]

/-- The walk function never returns an error. -/
theorem upload_snd (cfg : Config) (w : World) (bucket P : String) (hist : List Event)
    (e : WalkEntry) : (upload cfg w bucket P hist e).2 = none := by
  unfold upload
  split <;> rfl

/-- A directory entry leaves the trace as it is. -/
theorem upload_dir (cfg : Config) (w : World) (bucket P : String) (hist : List Event)
    (e : WalkEntry) (h : e.isDir = true) : (upload cfg w bucket P hist e).1 = hist := by
  simp [upload, h]

/-- A file entry adds one `PutObject` call, whatever `os.Open` returned. -/
theorem putCalls_upload_file (cfg : Config) (w : World) (bucket P : String)
    (hist : List Event) (e : WalkEntry) (h : e.isDir = false) :
    putCalls (upload cfg w bucket P hist e).1 =
      putCalls hist ++ [⟨openedFile w hist e, bucket, uploadKey P cfg.source e.path⟩] := by
  simp only [upload, h, Bool.false_eq_true, if_false, openedFile]
  split <;> split <;> simp [putCalls_append, putCalls]

theorem walkLoop_upload_cons (cfg : Config) (w : World) (bucket P : String)
    (hist : List Event) (e : WalkEntry) (es : List WalkEntry) :
    walkLoop (upload cfg w bucket P) hist (e :: es) =
      walkLoop (upload cfg w bucket P) (upload cfg w bucket P hist e).1 es := by
  have h2 := upload_snd cfg w bucket P hist e
  rw [walkLoop]
  cases hu : upload cfg w bucket P hist e with
  | mk h r =>
    rw [hu] at h2
    simp only at h2
    subst h2
    rfl

/-- The walk goes on from whatever trace its first entries left. -/
theorem walkLoop_upload_append (cfg : Config) (w : World) (bucket P : String)
    (es1 es2 : List WalkEntry) : ∀ hist : List Event,
    walkLoop (upload cfg w bucket P) hist (es1 ++ es2) =
      walkLoop (upload cfg w bucket P) (walkLoop (upload cfg w bucket P) hist es1) es2 := by
  induction es1 with
  | nil => intro hist; rfl
  | cons e es ih =>
    intro hist
    rw [List.cons_append, walkLoop_upload_cons, walkLoop_upload_cons, ih]

/-- The `PutObject` calls of a walk go to the keys of its file entries, in their
order. -/
theorem putCalls_walkLoop (cfg : Config) (w : World) (bucket P : String)
    (entries : List WalkEntry) : ∀ hist : List Event,
    (putCalls (walkLoop (upload cfg w bucket P) hist entries)).map target =
      (putCalls hist).map target ++
        (fileEntries entries).map (fun e => (bucket, uploadKey P cfg.source e.path)) := by
  induction entries with
  | nil => intro hist; simp [walkLoop, fileEntries]
  | cons e es ih =>
    intro hist
    rw [walkLoop_upload_cons, ih]
    cases hd : e.isDir with
    | true => simp [upload_dir cfg w bucket P hist e hd, fileEntries, hd]
    | false =>
      rw [putCalls_upload_file cfg w bucket P hist e hd]
      simp [fileEntries, hd, target]

/-! ## The claims -/

/-- C1: for a non-empty source `S` (the flag variable `source`), the key of the
`PutObject` call that `upload` issues for a file entry with path `p` is the
prefix `P`, then `"/"`, then `p` with every non-overlapping occurrence of `S`,
scanned left to right, removed. -/
theorem upload_key_removes_every_occurrence (cfg : Config) (w : World)
    (bucket P : String) (hist : List Event) (e : WalkEntry)
    (hS : cfg.source ≠ "") (hfile : e.isDir = false) :
    (putCalls (upload cfg w bucket P hist e).1).map (fun i => i.Key) =
      (putCalls hist).map (fun i => i.Key) ++ [P ++ "/" ++ removeAll cfg.source e.path] := by
  rw [putCalls_upload_file cfg w bucket P hist e hfile, uploadKey_eq_removeAll P _ _ hS]
  simp

/-- C1 at the source `site` and the path `site/my-site/x`: both occurrences of
`site` are gone from the key. -/
theorem upload_key_removes_every_occurrence_witness :
    (putCalls (upload ⟨"site", "b", "", "", "eu-west-1"⟩ w0 "b" "P" []
        ⟨"site/my-site/x", false⟩).1).map (fun i => i.Key) =
      (putCalls []).map (fun i => i.Key) ++ ["P" ++ "/" ++ removeAll "site" "site/my-site/x"]
    ∧ "P" ++ "/" ++ removeAll "site" "site/my-site/x" = "P//my-/x" :=
  ⟨upload_key_removes_every_occurrence ⟨"site", "b", "", "", "eu-west-1"⟩ w0 "b" "P" []
    ⟨"site/my-site/x", false⟩ (by decide) rfl, by decide⟩

/-- C2, as stated, fails: under the source `./site` the key `upload` builds
is `P/a/b/c.txt` for no prefix `P`, neither for the path `./site/a/b/c.txt`
nor for the cleaned path `site/a/b/c.txt`. -/
theorem key_single_slash_counterexample :
    ¬ (∀ (w : World) (P : String),
        (putCalls (upload ⟨"./site", "b", "", "", "eu-west-1"⟩ w "b" P []
          ⟨"./site/a/b/c.txt", false⟩).1).map (fun i => i.Key) = [P ++ "/a/b/c.txt"])
    ∧ ¬ (∀ (w : World) (P : String),
        (putCalls (upload ⟨"./site", "b", "", "", "eu-west-1"⟩ w "b" P []
          ⟨"site/a/b/c.txt", false⟩).1).map (fun i => i.Key) = [P ++ "/a/b/c.txt"]) := by
  constructor
  · intro h
    exact absurd (h w0 "P") (by decide)
  · intro h
    exact absurd (h w0 "P") (by decide)

/-- C2, amended: under the source `./site`, for every prefix `P`, the key
`upload` builds for the walked path `./site/a/b/c.txt` is `P//a/b/c.txt` (the
slash that `source` leaves behind follows the slash of the format), and for the
cleaned path `site/a/b/c.txt`, in which `./site` does not occur, it is
`P/site/a/b/c.txt`. -/
theorem key_under_dot_site (w : World) (bucket key secret region P : String)
    (hist : List Event) :
    (putCalls (upload ⟨"./site", bucket, key, secret, region⟩ w bucket P hist
        ⟨"./site/a/b/c.txt", false⟩).1).map (fun i => i.Key) =
      (putCalls hist).map (fun i => i.Key) ++ [P ++ "//a/b/c.txt"]
    ∧ (putCalls (upload ⟨"./site", bucket, key, secret, region⟩ w bucket P hist
        ⟨"site/a/b/c.txt", false⟩).1).map (fun i => i.Key) =
      (putCalls hist).map (fun i => i.Key) ++ [P ++ "/site/a/b/c.txt"] := by
  have e1 : Replace "./site/a/b/c.txt" "./site" "" (-1) = "/a/b/c.txt" := by decide
  have e2 : Replace "site/a/b/c.txt" "./site" "" (-1) = "site/a/b/c.txt" := by decide
  have a1 : P ++ "/" ++ "/a/b/c.txt" = P ++ "//a/b/c.txt" := by
    rw [String.append_assoc]; rfl
  have a2 : P ++ "/" ++ "site/a/b/c.txt" = P ++ "/site/a/b/c.txt" := by
    rw [String.append_assoc]; rfl
  constructor
  · rw [putCalls_upload_file _ _ _ _ _ _ rfl]
    simp [uploadKey, e1, a1]
  · rw [putCalls_upload_file _ _ _ _ _ _ rfl]
    simp [uploadKey, e2, a2]

/-- C3: whatever `os.Open` and `PutObject` return, the walk function built by
`upload` issues one `PutObject` call for each file entry of the walk, in walk
order and to the key of that entry, so as many calls as there are file entries;
a directory entry adds nothing to the trace; and the walk function never stops
the walk: the entries behind any first part of the walk are visited from the
trace that first part left. -/
theorem walk_puts_once_per_file (cfg : Config) (w : World) (bucket P : String)
    (hist : List Event) (entries : List WalkEntry) :
    (putCalls (walkLoop (upload cfg w bucket P) hist entries)).map target =
        (putCalls hist).map target ++
          (fileEntries entries).map (fun e => (bucket, uploadKey P cfg.source e.path))
    ∧ (putCalls (walkLoop (upload cfg w bucket P) hist entries)).length =
        (putCalls hist).length + (fileEntries entries).length
    ∧ (∀ (h : List Event) (p : String), (upload cfg w bucket P h ⟨p, true⟩).1 = h)
    ∧ (∀ (h : List Event) (e : WalkEntry), (upload cfg w bucket P h e).2 = none)
    ∧ (∀ (h : List Event) (es1 es2 : List WalkEntry),
        walkLoop (upload cfg w bucket P) h (es1 ++ es2) =
          walkLoop (upload cfg w bucket P) (walkLoop (upload cfg w bucket P) h es1) es2) := by
  have h1 := putCalls_walkLoop cfg w bucket P entries hist
  refine ⟨h1, ?_, ?_, ?_, ?_⟩
  · have := congrArg List.length h1
    simpa using this
  · intro h p
    exact upload_dir cfg w bucket P h ⟨p, true⟩ rfl
  · intro h e
    exact upload_snd cfg w bucket P h e
  · intro h es1 es2
    exact walkLoop_upload_append cfg w bucket P es1 es2 h

/-- C5, the code at a file that cannot be opened: after logging
`Unable to open site/a.txt` the walk function goes on with the `nil` file and
still calls `PutObject`, with the key of the file and that `nil` body. -/
theorem open_failure_still_puts :
    deploy ⟨"site/", "b", "", "", "eu-west-1"⟩ wOpenFails =
      [Event.stat "site/", Event.listBuckets, Event.walk "site/",
       Event.openFile "site/a.txt",
       Event.logPrintf "Unable to open site/a.txt",
       Event.putObject ⟨none, "b", "2024-03-07T09:05:00/a.txt"⟩,
       Event.logPrintf "Failed to upload site/a.txt",
       Event.printf "Uploaded site/a.txt\n",
       Event.closeFile none,
       Event.printf "Uploaded site with prefix: 2024-03-07T09:05:00\n"] := by
  decide

/-- C6: with `source` and `bucket` set, when `os.Stat` of the source reports
that it does not exist, `deploy` ends in `log.Fatal` with
`Source directory does not exist`, having only called `os.Stat`: no call to the
storage service, no walk and nothing printed. -/
theorem missing_source_is_fatal (cfg : Config) (w : World)
    (hs : cfg.source ≠ "") (hb : cfg.bucket ≠ "")
    (hstat : ∃ err, w.stat cfg.source = some err ∧ IsNotExist err = true) :
    deploy cfg w = [Event.stat cfg.source, Event.logFatal "Source directory does not exist"]
    ∧ fatalMessage (deploy cfg w) = some "Source directory does not exist"
    ∧ storageCalls (deploy cfg w) = []
    ∧ walkStarted (deploy cfg w) = false
    ∧ printed (deploy cfg w) = [] := by
  obtain ⟨err, he, hne⟩ := hstat
  have hd : deploy cfg w =
      [Event.stat cfg.source, Event.logFatal "Source directory does not exist"] := by
    simp [deploy, hs, hb, dirExists, he, hne]
  rw [hd]
  simp [fatalMessage, storageCalls, walkStarted, printed]

/-- C6 at the source `fixtures/`, missing. -/
theorem missing_source_is_fatal_witness :
    deploy ⟨"fixtures/", "test-bucket", "", "", "eu-west-1"⟩ wNoSource =
      [Event.stat "fixtures/", Event.logFatal "Source directory does not exist"]
    ∧ fatalMessage (deploy ⟨"fixtures/", "test-bucket", "", "", "eu-west-1"⟩ wNoSource) =
      some "Source directory does not exist"
    ∧ storageCalls (deploy ⟨"fixtures/", "test-bucket", "", "", "eu-west-1"⟩ wNoSource) = []
    ∧ walkStarted (deploy ⟨"fixtures/", "test-bucket", "", "", "eu-west-1"⟩ wNoSource) = false
    ∧ printed (deploy ⟨"fixtures/", "test-bucket", "", "", "eu-west-1"⟩ wNoSource) = [] :=
  missing_source_is_fatal ⟨"fixtures/", "test-bucket", "", "", "eu-west-1"⟩ wNoSource
    (by decide) (by decide) ⟨GoError.errno ENOENT, rfl, rfl⟩

theorem bucketLoop_iff (name : String) (bs : List Bucket) :
    bucketLoop name bs = true ↔ ∃ b ∈ bs, StringValue b.Name = name := by
  induction bs with
  | nil => simp [bucketLoop]
  | cons b bs ih =>
    by_cases h : StringValue b.Name = name
    · simp [bucketLoop, h]
    · simp [bucketLoop, h, ih]

theorem bucketExists_iff (w : World) (name : String) :
    (bucketExists w name).1 = true ↔
      ∃ bs, w.listBuckets = Except.ok bs ∧ ∃ b ∈ bs, StringValue b.Name = name := by
  unfold bucketExists
  cases hl : w.listBuckets with
  | error err => simp
  | ok bs =>
    by_cases hb : bucketLoop name bs = true
    · simpa [hb] using (bucketLoop_iff name bs).mp hb
    · have hn := mt (bucketLoop_iff name bs).mpr hb
      simpa [hb] using hn

/-- C7: `bucketExists` returns `true` exactly when `ListBuckets` succeeded and
some listed bucket's name equals the name asked for; and when it returns
`false` for the flag variable `bucket`, no run of `deploy` issues a `PutObject`
call, and every run in which `deploy` called it (the runs that reach
`ListBuckets`: `source` and `bucket` set and `dirExists` true) ends in
`log.Fatal` with `Destination bucket does not exist`. -/
theorem absent_bucket_is_fatal (cfg : Config) (w : World) :
    (∀ name : String, (bucketExists w name).1 = true ↔
      ∃ bs, w.listBuckets = Except.ok bs ∧ ∃ b ∈ bs, StringValue b.Name = name)
    ∧ ((bucketExists w cfg.bucket).1 = false →
        putCalls (deploy cfg w) = []
        ∧ (Event.listBuckets ∈ deploy cfg w ↔
            cfg.source ≠ "" ∧ cfg.bucket ≠ "" ∧ (dirExists w cfg.source).1 = true)
        ∧ (Event.listBuckets ∈ deploy cfg w →
            fatalMessage (deploy cfg w) = some "Destination bucket does not exist")) := by
  refine ⟨fun name => bucketExists_iff w name, ?_⟩
  intro hfalse
  unfold deploy
  by_cases hs : cfg.source = ""
  · simp [hs, putCalls]
  · by_cases hb : cfg.bucket = ""
    · simp [hs, hb, putCalls]
    · by_cases hd : (dirExists w cfg.source).1 = true
      · simp [hs, hb, hd, hfalse, putCalls, fatalMessage]
      · simp [hs, hb, hd, putCalls]

/-- C7 at a source directory that exists and a listing that fails. -/
theorem absent_bucket_is_fatal_witness :
    (bucketExists wListFails "test-bucket").1 = false
    ∧ Event.listBuckets ∈ deploy ⟨"fixtures/", "test-bucket", "", "", "eu-west-1"⟩ wListFails
    ∧ putCalls (deploy ⟨"fixtures/", "test-bucket", "", "", "eu-west-1"⟩ wListFails) = []
    ∧ fatalMessage (deploy ⟨"fixtures/", "test-bucket", "", "", "eu-west-1"⟩ wListFails) =
      some "Destination bucket does not exist" :=
  ⟨rfl, by decide,
    ((absent_bucket_is_fatal ⟨"fixtures/", "test-bucket", "", "", "eu-west-1"⟩
      wListFails).2 rfl).1,
    ((absent_bucket_is_fatal ⟨"fixtures/", "test-bucket", "", "", "eu-west-1"⟩
      wListFails).2 rfl).2.2 (by decide)⟩

/-- C8: `dirExists` tells three outcomes of `os.Stat` apart: no error gives
`(true, nil)`; a not-exist error gives `(false, nil)`; any other error `err`
is returned as that same `err` (next to `true`), so never as `(false, nil)`;
and the boolean is `false` exactly when the `os.Stat` error is not-exist. -/
theorem dirExists_outcomes (w : World) (path : String) :
    (w.stat path = none → dirExists w path = (true, none))
    ∧ (∀ err, w.stat path = some err → IsNotExist err = true →
        dirExists w path = (false, none))
    ∧ (∀ err, w.stat path = some err → IsNotExist err = false →
        (dirExists w path).2 = some err ∧ dirExists w path ≠ (false, none))
    ∧ ((dirExists w path).1 = false ↔
        ∃ err, w.stat path = some err ∧ IsNotExist err = true) := by
  unfold dirExists
  cases hst : w.stat path with
  | none => simp
  | some err =>
    cases hne : IsNotExist err <;> simp [hne]

/-- C8 at the three outcomes: a path that exists, a missing one, and one whose
`os.Stat` is denied. -/
theorem dirExists_outcomes_witness :
    dirExists w0 "fixtures/" = (true, none)
    ∧ dirExists wNoSource "fixtures/" = (false, none)
    ∧ ((dirExists wStatDenied "fixtures/").2 = some (GoError.errno 13)
        ∧ dirExists wStatDenied "fixtures/" ≠ (false, none))
    ∧ (dirExists wNoSource "fixtures/").1 = false :=
  ⟨(dirExists_outcomes w0 "fixtures/").1 rfl,
    (dirExists_outcomes wNoSource "fixtures/").2.1 (GoError.errno ENOENT) rfl rfl,
    (dirExists_outcomes wStatDenied "fixtures/").2.2.1 (GoError.errno 13) rfl rfl,
    (dirExists_outcomes wNoSource "fixtures/").2.2.2.mpr ⟨GoError.errno ENOENT, rfl, rfl⟩⟩

/-! ### Keys of two files -/

theorem Index_none_iff_absent (old : List Char) :
    ∀ s : List Char, Index s old = none ↔ ¬ old <:+: s := by
  intro s
  induction s with
  | nil =>
    cases old with
    | nil => simp [Index]
    | cons a l => simp [Index, List.isPrefixOf]
  | cons c t ih =>
    rw [List.infix_cons_iff]
    cases hp : old.isPrefixOf (c :: t) with
    | true =>
      rw [Index_cons_hit hp]
      have := List.isPrefixOf_iff_prefix.mp hp
      simp [this]
    | false =>
      rw [Index_cons_miss hp]
      have hnp : ¬ old <+: c :: t := fun h => by
        have := List.isPrefixOf_iff_prefix.mpr h
        rw [hp] at this
        cases this
      cases hi : Index t old with
      | none =>
        have := ih.mp hi
        simp [hnp, this]
      | some j =>
        have : old <:+: t := by
          by_contra hc
          rw [ih.mpr hc] at hi
          cases hi
        simp [this]

/-- A leading occurrence of `S` that is the only one is all the scan removes. -/
theorem stripScan_leading {S : List Char} (hS : S ≠ []) (r : List Char)
    (hr : ¬ S <:+: r) : stripScan S 0 (S ++ r) = r := by
  have hp : S.isPrefixOf (S ++ r) = true :=
    List.isPrefixOf_iff_prefix.mpr (List.prefix_append S r)
  cases hSr : S ++ r with
  | nil =>
    have : S = [] := (List.append_eq_nil.mp hSr).1
    exact absurd this hS
  | cons c t =>
    rw [hSr] at hp
    rw [stripScan_cons_hit hS hp, ← hSr, List.drop_left]
    exact stripScan_of_Index_none S r ((Index_none_iff_absent S r).mpr hr)

theorem uploadKey_leading (P S r : String) (hS : S ≠ "") (hr : ¬ S.data <:+: r.data) :
    uploadKey P S (S ++ r) = P ++ "/" ++ r := by
  rw [uploadKey_eq_removeAll P S _ hS]
  unfold removeAll
  rw [String.data_append, stripScan_leading (ne_empty_data hS) r.data hr]

theorem append_left_cancel (a b c : String) (h : a ++ b = a ++ c) : b = c := by
  have := congrArg String.data h
  rw [String.data_append, String.data_append] at this
  exact String.ext (List.append_cancel_left this)

/-- C9, as stated, fails: under the source `a` the distinct paths `a/ab` and
`a/b` both lie under `a/` and get the same key. -/
theorem keys_unique_counterexample :
    ¬ (∀ P S p1 p2 : String, S ≠ "" →
        (∃ r, p1 = S ++ "/" ++ r) → (∃ r, p2 = S ++ "/" ++ r) → p1 ≠ p2 →
        uploadKey P S p1 ≠ uploadKey P S p2) := by
  intro h
  exact h "P" "a" "a/ab" "a/b" (by decide) ⟨"ab", by decide⟩ ⟨"b", by decide⟩
    (by decide) (by decide)

/-- C9, amended: for every prefix `P`, every non-empty source `S` and every two
distinct paths that start with `S` followed by `"/"` and in which `S` does not
occur again behind that leading `S`, the keys `upload` builds differ. -/
theorem keys_unique_without_second_occurrence (P S r1 r2 : String) (hS : S ≠ "")
    (h1 : ¬ S.data <:+: ("/" ++ r1).data) (h2 : ¬ S.data <:+: ("/" ++ r2).data)
    (hne : S ++ "/" ++ r1 ≠ S ++ "/" ++ r2) :
    uploadKey P S (S ++ "/" ++ r1) ≠ uploadKey P S (S ++ "/" ++ r2) := by
  intro hk
  rw [String.append_assoc S, String.append_assoc S, uploadKey_leading P S _ hS h1,
    uploadKey_leading P S _ hS h2] at hk
  have := append_left_cancel _ _ _ hk
  apply hne
  rw [String.append_assoc S, String.append_assoc S, this]

/-- C9 amended, at the source `site` and the paths `site/a.txt` and
`site/css/b.txt`. -/
theorem keys_unique_without_second_occurrence_witness :
    uploadKey "P" "site" ("site" ++ "/" ++ "a.txt") ≠
      uploadKey "P" "site" ("site" ++ "/" ++ "css/b.txt") :=
  keys_unique_without_second_occurrence "P" "site" "a.txt" "css/b.txt" (by decide)
    ((Index_none_iff_absent _ _).mp (by decide))
    ((Index_none_iff_absent _ _).mp (by decide)) (by decide)

/-! ### The end-to-end run -/

theorem deploy_of_checks (cfg : Config) (w : World) (hs : cfg.source ≠ "")
    (hb : cfg.bucket ≠ "") (hd : (dirExists w cfg.source).1 = true)
    (he : (bucketExists w cfg.bucket).1 = true) :
    deploy cfg w =
      walkLoop (upload cfg w cfg.bucket (buildPrefix w.now))
        ([Event.stat cfg.source, Event.listBuckets] ++ [Event.walk cfg.source])
        (w.walk cfg.source)
      ++ [Event.printf ("Uploaded site with prefix: " ++ buildPrefix w.now ++ "\n")] := by
  simp [deploy, hs, hb, hd, he]

/-- C10: with the source `fixtures/`, which exists, the walk yielding (in any
order) the directories `fixtures/` and `fixtures/css` and the files
`fixtures/index.html` and `fixtures/css/site.css`, and `test-bucket` among the
listed buckets, the run issues exactly two `PutObject` calls, both to
`test-bucket`, with the keys `P/index.html` and `P/css/site.css` for the
generated prefix `P`, and the last text it prints is
`Uploaded site with prefix: P`. -/
theorem end_to_end_fixtures (cfg : Config) (w : World)
    (hsrc : cfg.source = "fixtures/") (hbkt : cfg.bucket = "test-bucket")
    (hdir : (dirExists w cfg.source).1 = true)
    (hlist : ∃ bs, w.listBuckets = Except.ok bs ∧ ∃ b ∈ bs, b.Name = some "test-bucket")
    (hwalk : (w.walk cfg.source).Perm fixturesWalk) :
    (putCalls (deploy cfg w)).length = 2
    ∧ ((putCalls (deploy cfg w)).map target).Perm
        [("test-bucket", buildPrefix w.now ++ "/index.html"),
         ("test-bucket", buildPrefix w.now ++ "/css/site.css")]
    ∧ (printed (deploy cfg w)).getLast? =
        some ("Uploaded site with prefix: " ++ buildPrefix w.now ++ "\n") := by
  obtain ⟨bs, hl, b, hmem, hname⟩ := hlist
  have he : (bucketExists w cfg.bucket).1 = true :=
    (bucketExists_iff w cfg.bucket).mpr ⟨bs, hl, b, hmem, by rw [hname, hbkt]; rfl⟩
  have hs : cfg.source ≠ "" := by rw [hsrc]; decide
  have hb : cfg.bucket ≠ "" := by rw [hbkt]; decide
  have k1 : uploadKey (buildPrefix w.now) "fixtures/" "fixtures/index.html" =
      buildPrefix w.now ++ "/index.html" := by
    have e : Replace "fixtures/index.html" "fixtures/" "" (-1) = "index.html" := by decide
    rw [uploadKey, e, String.append_assoc]; rfl
  have k2 : uploadKey (buildPrefix w.now) "fixtures/" "fixtures/css/site.css" =
      buildPrefix w.now ++ "/css/site.css" := by
    have e : Replace "fixtures/css/site.css" "fixtures/" "" (-1) = "css/site.css" := by
      decide
    rw [uploadKey, e, String.append_assoc]; rfl
  have hfiles : (fileEntries (w.walk cfg.source)).Perm
      [⟨"fixtures/css/site.css", false⟩, ⟨"fixtures/index.html", false⟩] := by
    have := List.Perm.filter (fun e : WalkEntry => !e.isDir) hwalk
    simpa [fileEntries, fixturesWalk] using this
  have hputs := putCalls_walkLoop cfg w cfg.bucket (buildPrefix w.now) (w.walk cfg.source)
    ([Event.stat cfg.source, Event.listBuckets] ++ [Event.walk cfg.source])
  have hmap := List.Perm.map
    (fun e : WalkEntry => (cfg.bucket, uploadKey (buildPrefix w.now) cfg.source e.path)) hfiles
  rw [deploy_of_checks cfg w hs hb hdir he]
  have hT : (putCalls (walkLoop (upload cfg w cfg.bucket (buildPrefix w.now))
      ([Event.stat cfg.source, Event.listBuckets] ++ [Event.walk cfg.source])
      (w.walk cfg.source) ++
      [Event.printf ("Uploaded site with prefix: " ++ buildPrefix w.now ++ "\n")])).map target =
      (fileEntries (w.walk cfg.source)).map
        (fun e => (cfg.bucket, uploadKey (buildPrefix w.now) cfg.source e.path)) := by
    rw [putCalls_append, List.map_append, hputs]
    simp [putCalls]
  refine ⟨?_, ?_, ?_⟩
  · have := congrArg List.length hT
    rw [List.length_map, List.length_map, hfiles.length_eq] at this
    simpa using this
  · rw [hT]
    refine hmap.trans ?_
    rw [hsrc, hbkt]
    simp only [List.map_cons, List.map_nil, k1, k2]
    exact List.Perm.swap _ _ _
  · rw [printed_append]
    simp [printed]

/-- C10 at the walk in the order of `filepath.Walk` and the bucket list holding
only `test-bucket`. -/
theorem end_to_end_fixtures_witness :
    (putCalls (deploy ⟨"fixtures/", "test-bucket", "", "", "eu-west-1"⟩ w0)).length = 2
    ∧ ((putCalls (deploy ⟨"fixtures/", "test-bucket", "", "", "eu-west-1"⟩ w0)).map
        target).Perm
        [("test-bucket", buildPrefix w0.now ++ "/index.html"),
         ("test-bucket", buildPrefix w0.now ++ "/css/site.css")]
    ∧ (printed (deploy ⟨"fixtures/", "test-bucket", "", "", "eu-west-1"⟩ w0)).getLast? =
        some ("Uploaded site with prefix: " ++ buildPrefix w0.now ++ "\n") :=
  end_to_end_fixtures ⟨"fixtures/", "test-bucket", "", "", "eu-west-1"⟩ w0 rfl rfl rfl
    ⟨[⟨some "test-bucket"⟩], rfl, ⟨some "test-bucket"⟩, List.mem_singleton.mpr rfl, rfl⟩
    (List.Perm.refl _)

/-! ### The generated prefix -/

theorem decDigits_small (fuel u : Nat) (buf : List Char) (h : u < 10) :
    decDigits fuel u buf = digitChar u :: buf := by
  cases fuel with
  | zero => rfl
  | succ f =>
    have : ¬ u ≥ 10 := by omega
    simp [decDigits, this]

theorem decDigits_step (fuel u : Nat) (buf : List Char) (h : 10 ≤ u) :
    decDigits (fuel + 1) u buf = decDigits fuel (u / 10) (digitChar (u % 10) :: buf) := by
  have e : u - u / 10 * 10 = u % 10 := by omega
  simp [decDigits, h, e]

theorem decDigits_two (n : Nat) (h : n < 100) :
    List.replicate (2 - (decDigits n n []).length) '0' ++ decDigits n n [] =
      [digitChar (n / 10), digitChar (n % 10)] := by
  by_cases h10 : n < 10
  · rw [decDigits_small n n [] h10]
    have e1 : n / 10 = 0 := by omega
    have e2 : n % 10 = n := by omega
    rw [e1, e2]
    rfl
  · obtain ⟨m, rfl⟩ : ∃ m, n = m + 1 := ⟨n - 1, by omega⟩
    rw [decDigits_step m (m + 1) [] (by omega), decDigits_small _ _ _ (by omega)]
    rfl

theorem decDigits_four (n : Nat) (h1 : 1000 ≤ n) (h2 : n < 10000) :
    decDigits n n [] =
      [digitChar (n / 1000), digitChar (n / 100 % 10), digitChar (n / 10 % 10),
       digitChar (n % 10)] := by
  obtain ⟨m, rfl⟩ : ∃ m, n = m + 3 := ⟨n - 3, by omega⟩
  rw [decDigits_step (m + 2) (m + 3) [] (by omega),
    decDigits_step (m + 1) ((m + 3) / 10) _ (by omega),
    decDigits_step m ((m + 3) / 10 / 10) _ (by omega),
    decDigits_small _ _ _ (by omega)]
  have e1 : (m + 3) / 10 / 10 / 10 = (m + 3) / 1000 := by omega
  have e2 : (m + 3) / 10 / 10 % 10 = (m + 3) / 100 % 10 := by omega
  rw [e1, e2]

/-- The verb `%02d` on a number from 0 to 99 writes its two digits. -/
theorem fmtInteger_two (n : Nat) (h : n < 100) :
    fmtInteger (n : Int) true (some 2) = [digitChar (n / 10), digitChar (n % 10)] := by
  have hneg : ¬ ((n : Int) < 0) := by omega
  simp only [fmtInteger, hneg, decide_False, Int.natAbs_ofNat, Bool.false_eq_true, if_false,
    decDigits_two n h, Option.getD_some]
  rfl

/-- The verb `%d` on a number from 1000 to 9999 writes its four digits. -/
theorem fmtInteger_four (n : Nat) (h1 : 1000 ≤ n) (h2 : n < 10000) :
    fmtInteger (n : Int) false none =
      [digitChar (n / 1000), digitChar (n / 100 % 10), digitChar (n / 10 % 10),
       digitChar (n % 10)] := by
  have hneg : ¬ ((n : Int) < 0) := by omega
  simp [fmtInteger, hneg, decDigits_four n h1 h2]

theorem isDigit_digitChar (d : Nat) (h : d < 10) : (digitChar d).isDigit = true := by
  interval_cases d <;> decide

theorem toNat_digitChar (d : Nat) (h : d < 10) : (digitChar d).toNat - 48 = d := by
  interval_cases d <;> decide

theorem buildPrefix_data (y mo d h mi sec : Nat) (hy1 : 1000 ≤ y) (hy2 : y < 10000)
    (hmo : mo < 100) (hd : d < 100) (hh : h < 100) (hmi : mi < 100) (hsec : sec < 100) :
    (buildPrefix ⟨y, mo, d, h, mi, sec⟩).data =
      [digitChar (y / 1000), digitChar (y / 100 % 10), digitChar (y / 10 % 10),
       digitChar (y % 10), '-', digitChar (mo / 10), digitChar (mo % 10), '-',
       digitChar (d / 10), digitChar (d % 10), 'T', digitChar (h / 10), digitChar (h % 10),
       ':', digitChar (mi / 10), digitChar (mi % 10), ':', digitChar (sec / 10),
       digitChar (sec % 10)] := by
  simp only [buildPrefix, fmtInteger_four y hy1 hy2, fmtInteger_two mo hmo,
    fmtInteger_two d hd, fmtInteger_two h hh, fmtInteger_two mi hmi, fmtInteger_two sec hsec]
  rfl

theorem readDec_two (a b : Nat) (ha : a < 10) (hb : b < 10) :
    readDec [digitChar a, digitChar b] = 10 * a + b := by
  simp [readDec, toNat_digitChar a ha, toNat_digitChar b hb]

theorem readDec_four (a b c d : Nat) (ha : a < 10) (hb : b < 10) (hc : c < 10)
    (hd : d < 10) :
    readDec [digitChar a, digitChar b, digitChar c, digitChar d] =
      10 * (10 * (10 * a + b) + c) + d := by
  simp [readDec, toNat_digitChar a ha, toNat_digitChar b hb, toNat_digitChar c hc,
    toNat_digitChar d hd]

/-- C4, as stated, fails: in the year 10000 the generated prefix has 20
characters and does not match the pattern, and in the year 999 it has 18. -/
theorem buildPrefix_any_year_counterexample :
    ¬ (∀ t : Time, 1 ≤ t.Month ∧ t.Month ≤ 12 → 1 ≤ t.Day ∧ t.Day ≤ 31 →
        0 ≤ t.Hour ∧ t.Hour ≤ 23 → 0 ≤ t.Minute ∧ t.Minute ≤ 59 →
        0 ≤ t.Second ∧ t.Second ≤ 59 →
        matchesPrefixPattern (buildPrefix t) = true ∧ (buildPrefix t).length = 19)
    ∧ buildPrefix ⟨10000, 1, 1, 0, 0, 0⟩ = "10000-01-01T00:00:00"
    ∧ buildPrefix ⟨999, 12, 31, 23, 59, 59⟩ = "999-12-31T23:59:59" := by
  refine ⟨?_, by decide, by decide⟩
  intro h
  have := (h ⟨10000, 1, 1, 0, 0, 0⟩ (by decide) (by decide) (by decide) (by decide)
    (by decide)).2
  exact absurd this (by decide)

/-- C4, amended: for every wall-clock time whose year is from 1000 to 9999
(month 1-12, day 1-31, hour 0-23, minute 0-59, second 0-59) the string
`buildPrefix` formats matches `^\d{4}-\d{2}-\d{2}T\d{2}:\d{2}:\d{2}$`, has
exactly 19 characters, and its six fields read back as decimal numbers are the
year, month, day, hour, minute and second of the time. -/
theorem buildPrefix_format (t : Time) (hy : 1000 ≤ t.Year ∧ t.Year ≤ 9999)
    (hmo : 1 ≤ t.Month ∧ t.Month ≤ 12) (hd : 1 ≤ t.Day ∧ t.Day ≤ 31)
    (hh : 0 ≤ t.Hour ∧ t.Hour ≤ 23) (hmi : 0 ≤ t.Minute ∧ t.Minute ≤ 59)
    (hs : 0 ≤ t.Second ∧ t.Second ≤ 59) :
    matchesPrefixPattern (buildPrefix t) = true
    ∧ (buildPrefix t).length = 19
    ∧ (readField (buildPrefix t) 0 4 : Int) = t.Year
    ∧ (readField (buildPrefix t) 5 2 : Int) = t.Month
    ∧ (readField (buildPrefix t) 8 2 : Int) = t.Day
    ∧ (readField (buildPrefix t) 11 2 : Int) = t.Hour
    ∧ (readField (buildPrefix t) 14 2 : Int) = t.Minute
    ∧ (readField (buildPrefix t) 17 2 : Int) = t.Second := by
  obtain ⟨Y, Mo, D, H, Mi, Sec⟩ := t
  simp only at hy hmo hd hh hmi hs
  obtain ⟨y, rfl⟩ := Int.eq_ofNat_of_zero_le (show (0 : Int) ≤ Y by omega)
  obtain ⟨mo, rfl⟩ := Int.eq_ofNat_of_zero_le (show (0 : Int) ≤ Mo by omega)
  obtain ⟨d, rfl⟩ := Int.eq_ofNat_of_zero_le (show (0 : Int) ≤ D by omega)
  obtain ⟨h, rfl⟩ := Int.eq_ofNat_of_zero_le (show (0 : Int) ≤ H by omega)
  obtain ⟨mi, rfl⟩ := Int.eq_ofNat_of_zero_le (show (0 : Int) ≤ Mi by omega)
  obtain ⟨sec, rfl⟩ := Int.eq_ofNat_of_zero_le (show (0 : Int) ≤ Sec by omega)
  have hdata := buildPrefix_data y mo d h mi sec (by omega) (by omega) (by omega) (by omega)
    (by omega) (by omega) (by omega)
  have dg : ∀ k, k < 10 → (digitChar k).isDigit = true := isDigit_digitChar
  refine ⟨?_, ?_, ?_, ?_, ?_, ?_, ?_, ?_⟩
  · simp [matchesPrefixPattern, hdata, prefixPattern, matchItems,
      dg (y / 1000) (by omega), dg (y / 100 % 10) (by omega), dg (y / 10 % 10) (by omega),
      dg (y % 10) (by omega), dg (mo / 10) (by omega), dg (mo % 10) (by omega),
      dg (d / 10) (by omega), dg (d % 10) (by omega), dg (h / 10) (by omega),
      dg (h % 10) (by omega), dg (mi / 10) (by omega), dg (mi % 10) (by omega),
      dg (sec / 10) (by omega), dg (sec % 10) (by omega)]
  · simp [String.length, hdata]
  · rw [show readField (buildPrefix ⟨y, mo, d, h, mi, sec⟩) 0 4 = readDec [digitChar (y / 1000),
      digitChar (y / 100 % 10), digitChar (y / 10 % 10), digitChar (y % 10)] by
      rw [readField, hdata]; rfl]
    rw [readDec_four _ _ _ _ (by omega) (by omega) (by omega) (by omega)]
    have e : 10 * (10 * (10 * (y / 1000) + y / 100 % 10) + y / 10 % 10) + y % 10 = y := by
      omega
    rw [e]
  · rw [show readField (buildPrefix ⟨y, mo, d, h, mi, sec⟩) 5 2 =
      readDec [digitChar (mo / 10), digitChar (mo % 10)] by rw [readField, hdata]; rfl]
    rw [readDec_two _ _ (by omega) (by omega)]
    have e : 10 * (mo / 10) + mo % 10 = mo := by omega
    rw [e]
  · rw [show readField (buildPrefix ⟨y, mo, d, h, mi, sec⟩) 8 2 =
      readDec [digitChar (d / 10), digitChar (d % 10)] by rw [readField, hdata]; rfl]
    rw [readDec_two _ _ (by omega) (by omega)]
    have e : 10 * (d / 10) + d % 10 = d := by omega
    rw [e]
  · rw [show readField (buildPrefix ⟨y, mo, d, h, mi, sec⟩) 11 2 =
      readDec [digitChar (h / 10), digitChar (h % 10)] by rw [readField, hdata]; rfl]
    rw [readDec_two _ _ (by omega) (by omega)]
    have e : 10 * (h / 10) + h % 10 = h := by omega
    rw [e]
  · rw [show readField (buildPrefix ⟨y, mo, d, h, mi, sec⟩) 14 2 =
      readDec [digitChar (mi / 10), digitChar (mi % 10)] by rw [readField, hdata]; rfl]
    rw [readDec_two _ _ (by omega) (by omega)]
    have e : 10 * (mi / 10) + mi % 10 = mi := by omega
    rw [e]
  · rw [show readField (buildPrefix ⟨y, mo, d, h, mi, sec⟩) 17 2 =
      readDec [digitChar (sec / 10), digitChar (sec % 10)] by rw [readField, hdata]; rfl]
    rw [readDec_two _ _ (by omega) (by omega)]
    have e : 10 * (sec / 10) + sec % 10 = sec := by omega
    rw [e]

/-- C4 amended, at 7 March 2024, 09:05:00. -/
theorem buildPrefix_format_witness :
    buildPrefix ⟨2024, 3, 7, 9, 5, 0⟩ = "2024-03-07T09:05:00"
    ∧ matchesPrefixPattern (buildPrefix ⟨2024, 3, 7, 9, 5, 0⟩) = true
    ∧ (buildPrefix ⟨2024, 3, 7, 9, 5, 0⟩).length = 19
    ∧ (readField (buildPrefix ⟨2024, 3, 7, 9, 5, 0⟩) 0 4 : Int) = 2024 :=
  ⟨by decide,
    (buildPrefix_format ⟨2024, 3, 7, 9, 5, 0⟩ (by decide) (by decide) (by decide)
      (by decide) (by decide) (by decide)).1,
    (buildPrefix_format ⟨2024, 3, 7, 9, 5, 0⟩ (by decide) (by decide) (by decide)
      (by decide) (by decide) (by decide)).2.1,
    (buildPrefix_format ⟨2024, 3, 7, 9, 5, 0⟩ (by decide) (by decide) (by decide)
      (by decide) (by decide) (by decide)).2.2.1⟩

end Waly
